import Mathlib

/-!
Verification of the Tiger-Alt auto-trail service (`main.py`).

This file gives a shallow embedding of the parts of the service that the
specification's testable properties talk about:

* the position record created by `handle_tiger_alt_entry` and the auto-trail
  ratchet logic of `PositionManager.calculate_auto_trail`,
* the Redis-backed position store together with its coupling to the price
  monitor's `monitored_symbols` set (`save_position` / `delete_position`),
* the symbol translation pair `tradingview_to_polygon` /
  `PolygonPriceMonitor._polygon_to_tradingview`,
* the connection handshake (`PolygonPriceMonitor.connect`) and the reconnect
  backoff (`PolygonPriceMonitor._handle_reconnect`).

Prices and money amounts are modelled as rationals; the arithmetic performed
by the source on these inputs (addition, subtraction, multiplication,
division, `int()` truncation, `min`, comparisons) is embedded operation by
operation.  Strings are modelled as `String` or `List Char`; the two regular
expressions used for CME contract codes are embedded as deterministic
matchers that are equivalent to the backtracking regexes because the total
length of the input pins the length of the first (greedy) group.
-/

namespace TigerAlt

/-- Python `int()` applied to a rational: truncation toward zero. -/
def pyInt (q : ℚ) : ℤ := if 0 ≤ q then ⌊q⌋ else ⌈q⌉

/-- The position record persisted in Redis, with the fields that
`handle_tiger_alt_entry` writes (main.py lines 653-665) and
`calculate_auto_trail` reads and mutates.  The `timestamp` field of the
source record is omitted: it is never read by the auto-trail logic. -/
structure PositionRecord where
  ticker : String
  side : String
  entryPrice : ℚ
  quantity : ℚ
  armAfterProfit : ℚ
  trailStep : ℚ
  hardStop : ℚ
  pointValue : ℚ
  currentStop : Option ℚ
  lockedProfit : ℚ
  deriving DecidableEq, Repr

/-- Python `point_value or 5.0` (main.py line 661): `or` yields the default
both when the value is absent (`None`) and when it is falsy (`0`). -/
def pyOrDefault (v : Option ℚ) (d : ℚ) : ℚ :=
  match v with
  | some x => if x = 0 then d else x
  | none => d

/-- The `position_data` dict built by `handle_tiger_alt_entry`
(main.py lines 653-665): `side` is the entry action, `currentStop` starts
unset (`None`) and `lockedProfit` starts at `0`. -/
def entryRecord (ticker side : String) (price quantity arm step hard : ℚ)
    (pv : Option ℚ) : PositionRecord :=
  { ticker := ticker
    side := side
    entryPrice := price
    quantity := quantity
    armAfterProfit := arm
    trailStep := step
    hardStop := hard
    pointValue := pyOrDefault pv 5
    currentStop := none
    lockedProfit := 0 }

/-- `profit_dollars` of `calculate_auto_trail` (main.py lines 477-480):
signed profit in money, sign depending on `side == "buy"`. -/
def profitDollars (p : PositionRecord) (currentPrice : ℚ) : ℚ :=
  if p.side = "buy" then
    (currentPrice - p.entryPrice) * p.pointValue * p.quantity
  else
    (p.entryPrice - currentPrice) * p.pointValue * p.quantity

/-- The locked-profit candidate computed in the armed branch of
`calculate_auto_trail` (main.py lines 485-492):
`trail_increments = int(excess / trail_step)`,
`locked = (arm - trail_step) + increments * trail_step`, capped at
`max_lockable = profit - trail_step`. -/
def candidateLockedProfit (p : PositionRecord) (profit : ℚ) : ℚ :=
  min ((p.armAfterProfit - p.trailStep)
        + (pyInt ((profit - p.armAfterProfit) / p.trailStep) : ℚ) * p.trailStep)
      (profit - p.trailStep)

/-- `new_stop` (main.py lines 494-497): the locked profit converted back to a
price, added for a long position and subtracted for a short one. -/
def newStopPrice (p : PositionRecord) (locked : ℚ) : ℚ :=
  if p.side = "buy" then
    p.entryPrice + locked / (p.pointValue * p.quantity)
  else
    p.entryPrice - locked / (p.pointValue * p.quantity)

/-- The `stop_update_payload` dispatched to TradersPost
(main.py lines 507-515). -/
structure StopOrder where
  strategy_id : String
  ticker : String
  action : String
  quantity : ℚ
  orderType : String
  stopPrice : ℚ
  timeInForce : String
  deriving DecidableEq, Repr

/-- The stop-adjustment payload built for a position (main.py lines 507-515):
the action is the opposite of the entry side. -/
def stopOrderFor (p : PositionRecord) (stopPrice : ℚ) : StopOrder :=
  { strategy_id := "Tiger-Alt"
    ticker := p.ticker
    action := if p.side = "buy" then "sell" else "buy"
    quantity := p.quantity
    orderType := "stop"
    stopPrice := stopPrice
    timeInForce := "gtc" }

/-- Outcome of one `calculate_auto_trail` call on an existing record:
the (possibly mutated) record, whether the ratchet branch ran (in the source
this one branch both saves the record and dispatches the stop order), and
the list of dispatched stop orders. -/
structure TrailOutcome where
  record : PositionRecord
  updated : Bool
  dispatches : List StopOrder
  deriving DecidableEq, Repr

/-- Core of `PositionManager.calculate_auto_trail` (main.py lines 471-519),
for a record that exists in the store.  The guard `profit_dollars >=
arm_after_profit` (line 484) gates the armed branch; inside it the update
runs iff `current_stop is None or locked_profit > current_locked_profit`
(line 501).  `position.get("lockedProfit", 0)` defaults to `0`, but every
record reaching this code was created with `lockedProfit` present, so the
field read is exact. -/
def autoTrailUpdate (p : PositionRecord) (currentPrice : ℚ) : TrailOutcome :=
  if p.armAfterProfit ≤ profitDollars p currentPrice then
    if p.currentStop = none ∨
        p.lockedProfit < candidateLockedProfit p (profitDollars p currentPrice) then
      { record :=
          { p with
            currentStop := some (newStopPrice p
              (candidateLockedProfit p (profitDollars p currentPrice)))
            lockedProfit := candidateLockedProfit p (profitDollars p currentPrice) }
        updated := true
        dispatches := [stopOrderFor p (newStopPrice p
          (candidateLockedProfit p (profitDollars p currentPrice)))] }
    else
      { record := p, updated := false, dispatches := [] }
  else
    { record := p, updated := false, dispatches := [] }

/-- A record's evolution under a sequence of price ticks, each processed by
`calculate_auto_trail` reading the record persisted by the previous call. -/
def runTrail (p : PositionRecord) (prices : List ℚ) : PositionRecord :=
  prices.foldl (fun q price => (autoTrailUpdate q price).record) p

/-! ### Symbol translation (main.py 112-189 and 314-350)

Symbols are modelled as `List Char`.  The two anchored regexes are embedded
as deterministic matchers: an anchored match `^([A-Z]{2,4})(month)(\d{4})$`
with the greedy first group bound to length `k` succeeds only when the
input length is exactly `k + 5`, so at most one of the backtracking
attempts k = 4, 3, 2 can succeed and the embedding below is equivalent to
the regex. -/

/-- `FUTURES_MONTH_CODES` keys, i.e. the regex class `[FGHJKMNQUVXZ]`. -/
def monthCodes : List Char := ['F', 'G', 'H', 'J', 'K', 'M', 'N', 'Q', 'U', 'V', 'X', 'Z']

/-- One backtracking attempt of `^([A-Z]{2,4})([FGHJKMNQUVXZ])(\d{4})$`
(main.py line 117) with the first group bound to `k` characters. -/
def cmeTryTV (s : List Char) (k : Nat) : Option (List Char × Char × List Char) :=
  if s.length = k + 5 then
    match s.drop k with
    | m :: ds =>
        if (s.take k).all Char.isUpper ∧ monthCodes.contains m ∧ ds.all Char.isDigit then
          some (s.take k, m, ds)
        else none
    | [] => none
  else none

/-- `re.match(cme_pattern, tv_symbol)` of `tradingview_to_polygon`
(main.py 117-118): greedy first group, lengths 4 then 3 then 2. -/
def cmeMatchTV (s : List Char) : Option (List Char × Char × List Char) :=
  match cmeTryTV s 4 with
  | some r => some r
  | none =>
      match cmeTryTV s 3 with
      | some r => some r
      | none => cmeTryTV s 2

/-- The `symbol_map` dict of `tradingview_to_polygon` (main.py 135-175). -/
def symbol_map : List (String × String) :=
  [("NQ", "I:NQ"), ("ES", "I:ES"), ("YM", "I:YM"), ("RTY", "I:RTY"),
   ("GC", "I:GC"), ("CL", "I:CL"), ("NG", "I:NG"), ("ZB", "I:ZB"),
   ("ZN", "I:ZN"), ("ZF", "I:ZF"), ("6E", "I:6E"), ("6J", "I:6J"),
   ("6B", "I:6B"), ("6A", "I:6A"), ("6C", "I:6C"), ("6S", "I:6S"),
   ("MNQ", "I:MNQ"), ("MES", "I:MES"), ("MYM", "I:MYM"), ("M2K", "I:M2K"),
   ("MGC", "I:MGC"), ("MCL", "I:MCL"),
   ("BTCUSD", "X:BTCUSD"), ("ETHUSD", "X:ETHUSD"), ("ADAUSD", "X:ADAUSD"),
   ("SOLUSD", "X:SOLUSD"),
   ("EURUSD", "C:EURUSD"), ("GBPUSD", "C:GBPUSD"), ("USDJPY", "C:USDJPY"),
   ("AUDUSD", "C:AUDUSD"), ("USDCAD", "C:USDCAD"), ("USDCHF", "C:USDCHF")]

/-- Python dict lookup `tv_symbol in symbol_map` / `symbol_map[tv_symbol]`
(main.py 178-179) on the association list. -/
def lookupMap : List (String × String) → List Char → Option (List Char)
  | [], _ => none
  | (k, v) :: rest, s => if s = k.toList then some v.toList else lookupMap rest s

/-- `tv_symbol.replace(".", "").isalpha()` (main.py line 183): Python
`isalpha` is false on the empty string. -/
def isStockSymbol (s : List Char) : Bool :=
  !(s.filter (fun c => c != '.')).isEmpty &&
    (s.filter (fun c => c != '.')).all Char.isAlpha

/-- `tradingview_to_polygon` (main.py 112-189).  The stock branch (line 184)
and the unknown-symbol fallback (line 189) both return the symbol
unchanged; they differ only in logging, so they are one branch here. -/
def tradingview_to_polygon (s : List Char) : List Char :=
  match cmeMatchTV s with
  | some (root, m, year) => 'I' :: ':' :: (root ++ m :: year.drop (year.length - 2))
  | none =>
      match lookupMap symbol_map s with
      | some p => p
      | none => s

/-- One backtracking attempt of `^I:([A-Z]{2,4})([FGHJKMNQUVXZ])(\d{2})$`
(main.py line 319) with the first group bound to `k` characters. -/
def cmeTryPoly (s : List Char) (k : Nat) : Option (List Char × Char × List Char) :=
  match s with
  | a :: b :: rest =>
      if a = 'I' ∧ b = ':' then
        if rest.length = k + 3 then
          match rest.drop k with
          | m :: ds =>
              if (rest.take k).all Char.isUpper ∧ monthCodes.contains m ∧
                  ds.all Char.isDigit then
                some (rest.take k, m, ds)
              else none
          | [] => none
        else none
      else none
  | _ => none

/-- `re.match(cme_pattern, polygon_symbol)` of `_polygon_to_tradingview`
(main.py 319-320). -/
def cmeMatchPoly (s : List Char) : Option (List Char × Char × List Char) :=
  match cmeTryPoly s 4 with
  | some r => some r
  | none =>
      match cmeTryPoly s 3 with
      | some r => some r
      | none => cmeTryPoly s 2

/-- `polygon_symbol.startswith("I:")` etc. (main.py 343-348). -/
def startsWith2 (a b : Char) : List Char → Bool
  | x :: y :: _ => x == a && y == b
  | _ => false

/-- Python `int(year_2digit)` on a string of decimal digits. -/
def decDigitsToNat (ds : List Char) : Nat :=
  ds.foldl (fun acc c => acc * 10 + (c.toNat - 48)) 0

/-- `PolygonPriceMonitor._polygon_to_tradingview` (main.py 314-350): a CME
match rebuilds a 4-digit year (`20xx` for `xx <= 30`, else `19xx`,
main.py 329-333); otherwise the `I:`/`X:`/`C:` prefixes are stripped. -/
def polygon_to_tradingview (s : List Char) : List Char :=
  match cmeMatchPoly s with
  | some (root, m, y2) =>
      root ++ m ::
        (if decDigitsToNat y2 ≤ 30 then '2' :: '0' :: y2 else '1' :: '9' :: y2)
  | none =>
      if startsWith2 'I' ':' s then s.drop 2
      else if startsWith2 'X' ':' s then s.drop 2
      else if startsWith2 'C' ':' s then s.drop 2
      else s

/-- The year halves of the CME round trip that survive the 2-digit
truncation: years 2000-2030 and 1931-1999 (main.py 329-333). -/
def yearOk (year : List Char) : Bool :=
  (year.take 2 == ['2', '0'] && decide (decDigitsToNat (year.drop 2) ≤ 30)) ||
    (year.take 2 == ['1', '9'] && decide (31 ≤ decDigitsToNat (year.drop 2)))

/-- The naming scheme supported by the translation pair: CME contract codes
whose year survives the 2-digit truncation, the static `symbol_map`
entries, and alphabetic (possibly dotted) stock symbols. -/
def supportedSymbol (s : List Char) : Bool :=
  match cmeMatchTV s with
  | some (_, _, year) => yearOk year
  | none => (lookupMap symbol_map s).isSome || isStockSymbol s

/-! ### Position store and monitored-symbol set (main.py 369-393, 419-463) -/

/-- The state shared by `PositionManager` (the Redis keys `position:<ticker>`)
and `PolygonPriceMonitor.monitored_symbols`. -/
structure SystemState where
  store : List (String × PositionRecord)
  monitored : List String
  deriving DecidableEq, Repr

/-- Redis `GET position:<ticker>` (main.py 427-437). -/
def lookupRec : List (String × PositionRecord) → String → Option PositionRecord
  | [], _ => none
  | (k, v) :: rest, t => if t = k then some v else lookupRec rest t

/-- Redis `SET` overwrites the key (main.py line 443). -/
def insertRec (l : List (String × PositionRecord)) (t : String) (r : PositionRecord) :
    List (String × PositionRecord) :=
  (t, r) :: l.filter (fun kv => kv.1 != t)

/-- Redis `DELETE` (main.py line 456). -/
def removeRec (l : List (String × PositionRecord)) (t : String) :
    List (String × PositionRecord) :=
  l.filter (fun kv => kv.1 != t)

/-- `monitored_symbols.add` (main.py line 371), a Python set. -/
def addSym (l : List String) (t : String) : List String :=
  if t ∈ l then l else t :: l

/-- `monitored_symbols.discard` (main.py line 384). -/
def removeSym (l : List String) (t : String) : List String :=
  l.filter (fun s => s != t)

/-- `PositionManager.save_position` (main.py 439-450): on a successful Redis
write (`redisOk = true`) it stores the record and then `add_symbol` puts the
ticker into `monitored_symbols` (main.py line 371) before any websocket
send; a Redis failure raises, is caught, and leaves both unchanged. -/
def save_position (st : SystemState) (ticker : String) (rec : PositionRecord)
    (redisOk : Bool) : SystemState :=
  if redisOk then
    { store := insertRec st.store ticker rec,
      monitored := addSym st.monitored ticker }
  else st

/-- `PositionManager.delete_position` (main.py 452-463): mirror image of
`save_position` with `remove_symbol` (main.py line 384). -/
def delete_position (st : SystemState) (ticker : String) (redisOk : Bool) :
    SystemState :=
  if redisOk then
    { store := removeRec st.store ticker,
      monitored := removeSym st.monitored ticker }
  else st

/-- `PositionManager.calculate_auto_trail` at store level (main.py 465-519):
looks the record up (first `return None` when absent), runs the trail logic,
and when the ratchet fires persists the mutated record via `save_position`
(line 504) before dispatching; the function ends in a plain `return None`
(line 519), so its value is `None` on every path.  The second component is
the list of dispatched stop orders, the third the function's return value. -/
def calculate_auto_trail (st : SystemState) (ticker : String) (price : ℚ) :
    SystemState × List StopOrder × Option StopOrder :=
  match lookupRec st.store ticker with
  | none => (st, [], none)
  | some p =>
      ((if (autoTrailUpdate p price).updated then
          save_position st ticker (autoTrailUpdate p price).record true
        else st),
       (autoTrailUpdate p price).dispatches, none)

/-- `_process_message` for a trade event (main.py 269-295): the feed symbol
is translated back, and for a monitored ticker the trail calculation runs;
the `auto_trail_update` broadcast is guarded by `if trail_result:`
(main.py line 285).  The second component lists the broadcast types sent. -/
def processTradeMessage (st : SystemState) (sym : List Char) (price : ℚ) :
    SystemState × List String :=
  if String.mk (polygon_to_tradingview sym) ∈ st.monitored then
    match calculate_auto_trail st (String.mk (polygon_to_tradingview sym)) price with
    | (st', _, some _) => (st', ["auto_trail_update"])
    | (st', _, none) => (st', [])
  else (st, [])

/-! ### Price feed connection and reconnect (main.py 202-241, 395-406) -/

/-- A message of the authentication response array, keeping the two fields
`connect` inspects (main.py line 221). -/
structure AuthMsg where
  ev : String
  status : String
  deriving DecidableEq, Repr

/-- Outcome of the transport interaction inside `connect`'s `try` block:
an exception anywhere in connect/send/recv, a parsed JSON array, or a
parsed non-array value (main.py 216-236). -/
inductive AuthResponse where
  | exn
  | jsonList (msgs : List AuthMsg)
  | jsonOther
  deriving DecidableEq, Repr

/-- The `PolygonPriceMonitor` connection fields the handshake touches. -/
structure MonitorState where
  is_connected : Bool
  reconnect_attempts : Nat
  max_reconnect_attempts : Nat
  deriving DecidableEq, Repr

/-- The success scan of main.py 220-230: some message of the array has
`ev == "status"` and `status == "auth_success"` (the source returns at the
first such message; whether one exists is what determines the outcome). -/
def authSuccess (msgs : List AuthMsg) : Bool :=
  msgs.any fun m => m.ev == "status" && m.status == "auth_success"

/-- `PolygonPriceMonitor.connect` (main.py 202-241), abstracted over the
transport outcome.  The second component records whether
`_handle_reconnect` was invoked: only the `except` branch (main.py 238-241)
calls it; the auth-failure and unexpected-shape branches (232-236) merely
clear `is_connected`. -/
def connect (st : MonitorState) (resp : AuthResponse) : MonitorState × Bool :=
  match resp with
  | .jsonList msgs =>
      if authSuccess msgs then
        ({ st with is_connected := true, reconnect_attempts := 0 }, false)
      else
        ({ st with is_connected := false }, false)
  | .jsonOther => ({ st with is_connected := false }, false)
  | .exn => ({ st with is_connected := false }, true)

/-- `PolygonPriceMonitor._handle_reconnect` (main.py 395-406): once
`reconnect_attempts` has reached `max_reconnect_attempts` it returns without
retrying; otherwise it increments the counter and sleeps
`min(2 ** attempts, 60)` seconds before reconnecting.  The second component
is the wait time of the scheduled retry, `none` when giving up. -/
def handle_reconnect (st : MonitorState) : MonitorState × Option Nat :=
  if st.max_reconnect_attempts ≤ st.reconnect_attempts then (st, none)
  else
    ({ st with reconnect_attempts := st.reconnect_attempts + 1 },
      some (min (2 ^ (st.reconnect_attempts + 1)) 60))

/-- The record of the spec's long scenario: entry 20000, pointValue 2,
quantity 1, armAfterProfit 100, trailStep 50 (hardStop is irrelevant to the
trail logic and set to an arbitrary 19900). -/
def c1entry : PositionRecord :=
  entryRecord "MNQU2025" "buy" 20000 1 100 50 19900 (some 2)

lemma runTrail_cons (p : PositionRecord) (a : ℚ) (l : List ℚ) :
    runTrail p (a :: l) = runTrail (autoTrailUpdate p a).record l := rfl

lemma pyInt_nonneg {q : ℚ} (h : 0 ≤ q) : 0 ≤ pyInt q := by
  unfold pyInt
  rw [if_pos h]
  exact Int.floor_nonneg.mpr h

lemma candidate_nonneg (p : PositionRecord) (profit : ℚ)
    (hstep : 0 < p.trailStep) (harm : p.trailStep ≤ p.armAfterProfit)
    (hprof : p.armAfterProfit ≤ profit) :
    0 ≤ candidateLockedProfit p profit := by
  unfold candidateLockedProfit
  apply le_min
  · have h2 : (0:ℚ) ≤ (pyInt ((profit - p.armAfterProfit) / p.trailStep) : ℚ) * p.trailStep := by
      refine mul_nonneg ?_ hstep.le
      exact_mod_cast pyInt_nonneg (div_nonneg (by linarith) hstep.le)
    linarith
  · linarith

lemma candidate_pos (p : PositionRecord) (profit : ℚ)
    (hstep : 0 < p.trailStep) (harm : p.trailStep < p.armAfterProfit)
    (hprof : p.armAfterProfit ≤ profit) :
    0 < candidateLockedProfit p profit := by
  unfold candidateLockedProfit
  apply lt_min
  · have h2 : (0:ℚ) ≤ (pyInt ((profit - p.armAfterProfit) / p.trailStep) : ℚ) * p.trailStep := by
      refine mul_nonneg ?_ hstep.le
      exact_mod_cast pyInt_nonneg (div_nonneg (by linarith) hstep.le)
    linarith
  · linarith

lemma autoTrail_record_params (p : PositionRecord) (price : ℚ) :
    (autoTrailUpdate p price).record.armAfterProfit = p.armAfterProfit ∧
    (autoTrailUpdate p price).record.trailStep = p.trailStep := by
  unfold autoTrailUpdate
  split_ifs <;> simp

lemma autoTrail_inv (p : PositionRecord) (price : ℚ)
    (h : p.currentStop = none → p.lockedProfit = 0) :
    (autoTrailUpdate p price).record.currentStop = none →
      (autoTrailUpdate p price).record.lockedProfit = 0 := by
  unfold autoTrailUpdate
  split_ifs <;> simp_all

lemma lockedProfit_le_step (p : PositionRecord) (price : ℚ)
    (hinv : p.currentStop = none → p.lockedProfit = 0)
    (hstep : 0 < p.trailStep) (harm : p.trailStep ≤ p.armAfterProfit) :
    p.lockedProfit ≤ (autoTrailUpdate p price).record.lockedProfit := by
  unfold autoTrailUpdate
  split_ifs with h1 h2
  · show p.lockedProfit ≤ candidateLockedProfit p (profitDollars p price)
    rcases h2 with hnone | hlt
    · rw [hinv hnone]
      exact candidate_nonneg p _ hstep harm h1
    · exact hlt.le
  · exact le_refl _
  · exact le_refl _

lemma runTrail_facts (prices : List ℚ) (p : PositionRecord)
    (h : p.currentStop = none → p.lockedProfit = 0) :
    ((runTrail p prices).currentStop = none → (runTrail p prices).lockedProfit = 0) ∧
    (runTrail p prices).armAfterProfit = p.armAfterProfit ∧
    (runTrail p prices).trailStep = p.trailStep := by
  induction prices generalizing p with
  | nil => exact ⟨h, rfl, rfl⟩
  | cons a l ih =>
    rw [runTrail_cons]
    have hp := autoTrail_record_params p a
    obtain ⟨i1, i2, i3⟩ := ih (autoTrailUpdate p a).record (autoTrail_inv p a h)
    exact ⟨i1, i2.trans hp.1, i3.trans hp.2⟩

lemma iff_step (p : PositionRecord) (price : ℚ)
    (hstep : 0 < p.trailStep) (harm : p.trailStep < p.armAfterProfit)
    (h : p.currentStop.isSome ↔ 0 < p.lockedProfit) :
    (autoTrailUpdate p price).record.currentStop.isSome ↔
      0 < (autoTrailUpdate p price).record.lockedProfit := by
  unfold autoTrailUpdate
  split_ifs with h1 h2
  · constructor
    · intro _
      exact candidate_pos p _ hstep harm h1
    · intro _
      rfl
  · exact h
  · exact h

lemma runTrail_iff (prices : List ℚ) (p : PositionRecord)
    (hstep : 0 < p.trailStep) (harm : p.trailStep < p.armAfterProfit)
    (h : p.currentStop.isSome ↔ 0 < p.lockedProfit) :
    (runTrail p prices).currentStop.isSome ↔ 0 < (runTrail p prices).lockedProfit := by
  induction prices generalizing p with
  | nil => exact h
  | cons a l ih =>
    rw [runTrail_cons]
    have hp := autoTrail_record_params p a
    refine ih _ ?_ ?_ (iff_step p a hstep harm h)
    · rw [hp.2]
      exact hstep
    · rw [hp.1, hp.2]
      exact harm

lemma cmeTryTV_eq_some {s : List Char} {k : Nat} {root : List Char} {m : Char}
    {ds : List Char} (h : cmeTryTV s k = some (root, m, ds)) :
    s = root ++ m :: ds ∧ root.length = k ∧ root.all Char.isUpper = true ∧
      monthCodes.contains m = true ∧ ds.all Char.isDigit = true ∧ ds.length = 4 := by
  unfold cmeTryTV at h
  split_ifs at h with hlen
  rcases hdrop : s.drop k with _ | ⟨m', ds'⟩ <;> rw [hdrop] at h
  · cases h
  · dsimp only at h
    split_ifs at h with hcond
    rw [Option.some_inj] at h
    simp only [Prod.mk.injEq] at h
    obtain ⟨hr, hm', hd'⟩ := h
    subst hr
    subst hm'
    subst hd'
    have hlen' : ds'.length = 4 := by
      have hcg := congrArg List.length hdrop
      rw [List.length_drop] at hcg
      simp only [List.length_cons] at hcg
      omega
    refine ⟨?_, ?_, hcond.1, hcond.2.1, hcond.2.2, hlen'⟩
    · conv_lhs => rw [← List.take_append_drop k s]
      rw [hdrop]
    · rw [List.length_take]
      omega

lemma cmeMatchTV_eq_some {s : List Char} {root : List Char} {m : Char} {ds : List Char}
    (h : cmeMatchTV s = some (root, m, ds)) :
    s = root ++ m :: ds ∧ (root.length = 2 ∨ root.length = 3 ∨ root.length = 4) ∧
      root.all Char.isUpper = true ∧ monthCodes.contains m = true ∧
      ds.all Char.isDigit = true ∧ ds.length = 4 := by
  unfold cmeMatchTV at h
  rcases h4 : cmeTryTV s 4 with _ | r4 <;> simp only [h4] at h
  · rcases h3 : cmeTryTV s 3 with _ | r3 <;> simp only [h3] at h
    · obtain ⟨e, hk, hrest⟩ := cmeTryTV_eq_some h
      exact ⟨e, Or.inl hk, hrest⟩
    · rw [Option.some_inj] at h
      subst h
      obtain ⟨e, hk, hrest⟩ := cmeTryTV_eq_some h3
      exact ⟨e, Or.inr (Or.inl hk), hrest⟩
  · rw [Option.some_inj] at h
    subst h
    obtain ⟨e, hk, hrest⟩ := cmeTryTV_eq_some h4
    exact ⟨e, Or.inr (Or.inr hk), hrest⟩

lemma cmeTryPoly_len_ne {rest : List Char} {k : Nat} (h : rest.length ≠ k + 3) :
    cmeTryPoly ('I' :: ':' :: rest) k = none := by
  simp [cmeTryPoly, h]

lemma cmeTryPoly_build {root : List Char} {m : Char} {d2 : List Char}
    (hu : root.all Char.isUpper = true) (hm : monthCodes.contains m = true)
    (hd : d2.all Char.isDigit = true) (h2 : d2.length = 2) :
    cmeTryPoly ('I' :: ':' :: (root ++ m :: d2)) root.length = some (root, m, d2) := by
  have hlen : (root ++ m :: d2).length = root.length + 3 := by
    simp [h2]
  simp only [cmeTryPoly, and_self, ite_true]
  rw [if_pos hlen]
  simp only [List.drop_left, List.take_left]
  rw [if_pos ⟨hu, hm, hd⟩]

lemma cmeMatchPoly_build {root : List Char} {m : Char} {d2 : List Char}
    (hklen : root.length = 2 ∨ root.length = 3 ∨ root.length = 4)
    (hu : root.all Char.isUpper = true) (hm : monthCodes.contains m = true)
    (hd : d2.all Char.isDigit = true) (h2 : d2.length = 2) :
    cmeMatchPoly ('I' :: ':' :: (root ++ m :: d2)) = some (root, m, d2) := by
  have hrest : (root ++ m :: d2).length = root.length + 3 := by
    simp [h2]
  have hb := cmeTryPoly_build hu hm hd h2
  rcases hklen with hk | hk | hk
  · have e4 : cmeTryPoly ('I' :: ':' :: (root ++ m :: d2)) 4 = none :=
      cmeTryPoly_len_ne (by rw [hrest, hk]; omega)
    have e3 : cmeTryPoly ('I' :: ':' :: (root ++ m :: d2)) 3 = none :=
      cmeTryPoly_len_ne (by rw [hrest, hk]; omega)
    have e2 : cmeTryPoly ('I' :: ':' :: (root ++ m :: d2)) 2 = some (root, m, d2) := by
      rw [← hk]
      exact hb
    simp only [cmeMatchPoly, e4, e3, e2]
  · have e4 : cmeTryPoly ('I' :: ':' :: (root ++ m :: d2)) 4 = none :=
      cmeTryPoly_len_ne (by rw [hrest, hk]; omega)
    have e3 : cmeTryPoly ('I' :: ':' :: (root ++ m :: d2)) 3 = some (root, m, d2) := by
      rw [← hk]
      exact hb
    simp only [cmeMatchPoly, e4, e3]
  · have e4 : cmeTryPoly ('I' :: ':' :: (root ++ m :: d2)) 4 = some (root, m, d2) := by
      rw [← hk]
      exact hb
    simp only [cmeMatchPoly, e4]

lemma lookupMap_eq_some :
    ∀ {l : List (String × String)} {s v : List Char},
      lookupMap l s = some v → ∃ p ∈ l, s = p.1.toList ∧ v = p.2.toList := by
  intro l
  induction l with
  | nil =>
      intro s v h
      cases h
  | cons a rest ih =>
      intro s v h
      rcases a with ⟨ka, va⟩
      unfold lookupMap at h
      split_ifs at h with he
      · rw [Option.some_inj] at h
        exact ⟨(ka, va), List.mem_cons_self _ _, he, h.symm⟩
      · obtain ⟨p, hp, h1, h2⟩ := ih h
        exact ⟨p, List.mem_cons_of_mem _ hp, h1, h2⟩

lemma symbol_map_roundtrip :
    symbol_map.all (fun p => polygon_to_tradingview p.2.toList == p.1.toList) = true := by
  decide

lemma stock_no_colon {s : List Char} (h : isStockSymbol s = true) : ':' ∉ s := by
  intro hmem
  unfold isStockSymbol at h
  rw [Bool.and_eq_true] at h
  have h2 := h.2
  rw [List.all_eq_true] at h2
  have h3 := h2 (':' : Char) (by rw [List.mem_filter]; exact ⟨hmem, by decide⟩)
  exact absurd h3 (by decide)

lemma cmeTryPoly_no_colon {s : List Char} {k : Nat} (h : ':' ∉ s) :
    cmeTryPoly s k = none := by
  rcases s with _ | ⟨a, _ | ⟨b, t⟩⟩
  · rfl
  · rfl
  · have hb : b ≠ ':' := by
      intro hbe
      subst hbe
      exact h (List.mem_cons_of_mem a (List.mem_cons_self _ _))
    simp [cmeTryPoly, hb]

lemma cmeMatchPoly_no_colon {s : List Char} (h : ':' ∉ s) : cmeMatchPoly s = none := by
  simp only [cmeMatchPoly, cmeTryPoly_no_colon h]

lemma startsWith2_no_colon {a : Char} {s : List Char} (h : ':' ∉ s) :
    startsWith2 a ':' s = false := by
  rcases s with _ | ⟨x, _ | ⟨y, t⟩⟩
  · rfl
  · rfl
  · have hy : y ≠ ':' := by
      intro hye
      subst hye
      exact h (List.mem_cons_of_mem x (List.mem_cons_self _ _))
    simp [startsWith2, hy]

lemma no_colon_poly_id {s : List Char} (h : ':' ∉ s) : polygon_to_tradingview s = s := by
  simp [polygon_to_tradingview, cmeMatchPoly_no_colon h, startsWith2_no_colon h]

/-- C1 counterexample: on the spec's long scenario, the tick to 20050 does
not set `lockedProfit` to 100 nor the stop to 20050 — the engine locks
`armAfterProfit - trailStep = 50` and places the stop at 20025. -/
theorem C1_counterexample :
    (autoTrailUpdate c1entry 20050).record.lockedProfit ≠ 100 ∧
    (autoTrailUpdate c1entry 20050).record.currentStop ≠ some 20050 := by
  constructor <;>
    · norm_num [autoTrailUpdate, profitDollars, candidateLockedProfit, newStopPrice,
        pyInt, c1entry, entryRecord, pyOrDefault, stopOrderFor]

/-- C1 (amended): long position, entry 20000, pointValue 2, quantity 1,
armAfterProfit 100, trailStep 50, no prior stop.  A tick to 20050 yields
profit 100 and the engine sets `lockedProfit` to 50 and the stop to
entry + 25 = 20025, dispatching exactly one stop adjustment; a further tick
to 20060 (profit 120, less than one whole increment past arming) does not
trigger a second dispatch. -/
theorem C1_trail_scenario :
    profitDollars c1entry 20050 = 100 ∧
    (autoTrailUpdate c1entry 20050).record.lockedProfit = 50 ∧
    (autoTrailUpdate c1entry 20050).record.currentStop = some 20025 ∧
    (autoTrailUpdate c1entry 20050).dispatches =
      [{ strategy_id := "Tiger-Alt", ticker := "MNQU2025", action := "sell",
         quantity := 1, orderType := "stop", stopPrice := 20025,
         timeInForce := "gtc" }] ∧
    profitDollars (autoTrailUpdate c1entry 20050).record 20060 = 120 ∧
    (autoTrailUpdate (autoTrailUpdate c1entry 20050).record 20060).dispatches = [] := by
  refine ⟨?_, ?_, ?_, ?_, ?_, ?_⟩ <;>
    · norm_num [autoTrailUpdate, profitDollars, candidateLockedProfit, newStopPrice,
        pyInt, c1entry, entryRecord, pyOrDefault, stopOrderFor]
      try simp

/-- C2 counterexample: with `armAfterProfit = 100 < trailStep = 200` (a
configuration the entry handler accepts), the very first qualifying tick
stores `lockedProfit = -100`, strictly below the initial `lockedProfit = 0`:
the stored field decreases over the record's lifetime. -/
theorem C2_counterexample :
    (runTrail (entryRecord "T" "buy" 100 1 100 200 50 (some 1)) [200]).lockedProfit <
      (entryRecord "T" "buy" 100 1 100 200 50 (some 1)).lockedProfit := by
  norm_num [runTrail, autoTrailUpdate, profitDollars, candidateLockedProfit,
    newStopPrice, pyInt, entryRecord, pyOrDefault, stopOrderFor]

/-- C2 (amended): provided `0 < trailStep ≤ armAfterProfit`, the stored
`lockedProfit` of a record created by `handle_tiger_alt_entry` never
decreases across any sequence of `calculate_auto_trail` calls: after any
run of ticks, one further tick leaves `lockedProfit` at least as large. -/
theorem C2_lockedProfit_monotone (ticker side : String)
    (entry qty arm step hard : ℚ) (pv : Option ℚ)
    (hstep : 0 < step) (harm : step ≤ arm) (prices : List ℚ) (price : ℚ) :
    (runTrail (entryRecord ticker side entry qty arm step hard pv) prices).lockedProfit ≤
      (autoTrailUpdate
        (runTrail (entryRecord ticker side entry qty arm step hard pv) prices)
        price).record.lockedProfit := by
  obtain ⟨hinv, harm', hstep'⟩ :=
    runTrail_facts prices (entryRecord ticker side entry qty arm step hard pv)
      (fun _ => rfl)
  refine lockedProfit_le_step _ price hinv ?_ ?_
  · rw [hstep']
    exact hstep
  · rw [hstep', harm']
    exact harm

/-- C2 witness: the monotonicity theorem applied to a concrete long
position (entry 100, arm 100, step 50) after the tick sequence `[200]`. -/
theorem C2_lockedProfit_monotone_witness :
    (0:ℚ) < 50 ∧ (50:ℚ) ≤ 100 ∧
    (runTrail (entryRecord "T" "buy" 100 1 100 50 80 (some 1)) [200]).lockedProfit ≤
      (autoTrailUpdate (runTrail (entryRecord "T" "buy" 100 1 100 50 80 (some 1)) [200])
        300).record.lockedProfit :=
  ⟨by norm_num, by norm_num,
    C2_lockedProfit_monotone "T" "buy" 100 1 100 50 80 (some 1)
      (by norm_num) (by norm_num) [200] 300⟩

/-- C3 counterexample: with `armAfterProfit = trailStep = 100` (accepted by
the entry handler), the first qualifying tick sets the stop while locking a
profit of `0`, so `currentStop` is set although `lockedProfit > 0` fails. -/
theorem C3_counterexample :
    (runTrail (entryRecord "T" "buy" 100 1 100 100 50 (some 1)) [200]).currentStop.isSome = true ∧
    ¬ (0 < (runTrail (entryRecord "T" "buy" 100 1 100 100 50 (some 1)) [200]).lockedProfit) := by
  constructor <;>
    · norm_num [runTrail, autoTrailUpdate, profitDollars, candidateLockedProfit,
        newStopPrice, pyInt, entryRecord, pyOrDefault, stopOrderFor]

/-- C3 (amended): provided `0 < trailStep < armAfterProfit`, every record
reachable from `handle_tiger_alt_entry` by `calculate_auto_trail` calls has
`currentStop` set iff `lockedProfit > 0`. -/
theorem C3_currentStop_iff_lockedProfit_pos (ticker side : String)
    (entry qty arm step hard : ℚ) (pv : Option ℚ)
    (hstep : 0 < step) (harm : step < arm) (prices : List ℚ) :
    (runTrail (entryRecord ticker side entry qty arm step hard pv) prices).currentStop.isSome ↔
      0 < (runTrail (entryRecord ticker side entry qty arm step hard pv) prices).lockedProfit := by
  refine runTrail_iff prices _ hstep harm ?_
  simp [entryRecord]

/-- C3 witness: the iff theorem applied to a concrete long position
(arm 100, step 50) after the tick sequence `[200]`, where the stop is set
and the locked profit is 50. -/
theorem C3_currentStop_iff_lockedProfit_pos_witness :
    (0:ℚ) < 50 ∧ (50:ℚ) < 100 ∧
    ((runTrail (entryRecord "T" "buy" 100 1 100 50 80 (some 1)) [200]).currentStop.isSome ↔
      0 < (runTrail (entryRecord "T" "buy" 100 1 100 50 80 (some 1)) [200]).lockedProfit) :=
  ⟨by norm_num, by norm_num,
    C3_currentStop_iff_lockedProfit_pos "T" "buy" 100 1 100 50 80 (some 1)
      (by norm_num) (by norm_num) [200]⟩

/-- C4 counterexample: at entry (currentStop unset) with
`armAfterProfit = trailStep`, the candidate locked profit (0) does not
strictly exceed the record's `lockedProfit` (0), yet the call dispatches a
stop adjustment, because the update also fires whenever `currentStop` is
`None`. -/
theorem C4_counterexample :
    candidateLockedProfit (entryRecord "T" "buy" 100 1 100 100 50 (some 1))
        (profitDollars (entryRecord "T" "buy" 100 1 100 100 50 (some 1)) 200) ≤
      (entryRecord "T" "buy" 100 1 100 100 50 (some 1)).lockedProfit ∧
    (autoTrailUpdate (entryRecord "T" "buy" 100 1 100 100 50 (some 1)) 200).dispatches.length = 1 := by
  constructor <;>
    · norm_num [autoTrailUpdate, profitDollars, candidateLockedProfit,
        newStopPrice, pyInt, entryRecord, pyOrDefault, stopOrderFor]

/-- C4 (amended): every `calculate_auto_trail` call dispatches at most one
stop adjustment, and dispatches none when `currentStop` is already set and
the candidate locked profit for the tick does not strictly exceed the
record's `lockedProfit`.  (When `currentStop` is unset the engine may
dispatch even without a strict increase.) -/
theorem C4_at_most_one_dispatch (p : PositionRecord) (price : ℚ) :
    (autoTrailUpdate p price).dispatches.length ≤ 1 ∧
    (p.currentStop ≠ none →
      candidateLockedProfit p (profitDollars p price) ≤ p.lockedProfit →
      (autoTrailUpdate p price).dispatches = []) := by
  constructor
  · unfold autoTrailUpdate
    split_ifs <;> simp
  · intro hsome hle
    unfold autoTrailUpdate
    split_ifs with h1 h2
    · rcases h2 with hnone | hlt
      · exact absurd hnone hsome
      · exact absurd hle (not_le.mpr hlt)
    · rfl
    · rfl

/-- C4 witness: a record with the stop already set and a tick whose
candidate locked profit equals the stored one — no dispatch. -/
theorem C4_at_most_one_dispatch_witness :
    (autoTrailUpdate
        { ticker := "T", side := "buy", entryPrice := 100, quantity := 1,
          armAfterProfit := 100, trailStep := 50, hardStop := 80, pointValue := 1,
          currentStop := some 150, lockedProfit := 50 } 200).dispatches.length ≤ 1 ∧
    (autoTrailUpdate
        { ticker := "T", side := "buy", entryPrice := 100, quantity := 1,
          armAfterProfit := 100, trailStep := 50, hardStop := 80, pointValue := 1,
          currentStop := some 150, lockedProfit := 50 } 200).dispatches = [] :=
  ⟨(C4_at_most_one_dispatch _ 200).1,
    (C4_at_most_one_dispatch _ 200).2 (by simp)
      (by norm_num [candidateLockedProfit, profitDollars, pyInt])⟩

/-- C5 (confirmed): whenever the signed profit in money is strictly below
`armAfterProfit`, `calculate_auto_trail` does nothing: the record is left
unchanged (in particular `currentStop` stays as it was), no save happens and
no stop adjustment is dispatched. -/
theorem C5_not_armed_no_action (p : PositionRecord) (price : ℚ)
    (h : profitDollars p price < p.armAfterProfit) :
    autoTrailUpdate p price = { record := p, updated := false, dispatches := [] } := by
  unfold autoTrailUpdate
  rw [if_neg (not_le.mpr h)]

/-- C5 witness: the spec's short scenario — entry 50, pointValue 1,
quantity 10, price moving adversely to 52 gives profit -20, below an
arming threshold of 100, so the record (with `currentStop` unset) is
untouched. -/
theorem C5_not_armed_no_action_witness :
    profitDollars (entryRecord "T" "sell" 50 10 100 30 60 (some 1)) 52 <
      (entryRecord "T" "sell" 50 10 100 30 60 (some 1)).armAfterProfit ∧
    autoTrailUpdate (entryRecord "T" "sell" 50 10 100 30 60 (some 1)) 52 =
      { record := entryRecord "T" "sell" 50 10 100 30 60 (some 1),
        updated := false, dispatches := [] } :=
  have hside : ("sell" : String) ≠ "buy" := by decide
  ⟨by norm_num [profitDollars, entryRecord, pyOrDefault, hside],
    C5_not_armed_no_action _ 52
      (by norm_num [profitDollars, entryRecord, pyOrDefault, hside])⟩

/-- C6 counterexample: `MNQU2031` is a CME futures contract code in the
supported naming scheme, but the year is truncated to `31` on the way to
the feed symbol and rebuilt as `1931` on the way back, so the round trip is
not the identity. -/
theorem C6_counterexample :
    polygon_to_tradingview (tradingview_to_polygon ("MNQU2031".toList)) ≠
      "MNQU2031".toList := by
  decide

/-- C6 (amended): translating to the feed symbol and back is the identity
for every symbol of the supported scheme whose CME year survives the
2-digit truncation (years 2000-2030 and 1931-1999), for every static-map
symbol, and for every alphabetic (possibly dotted) stock symbol. -/
theorem C6_roundtrip_supported (s : List Char) (h : supportedSymbol s = true) :
    polygon_to_tradingview (tradingview_to_polygon s) = s := by
  rcases hcme : cmeMatchTV s with _ | ⟨root, m, ds⟩
  · simp only [supportedSymbol, hcme] at h
    rcases hlook : lookupMap symbol_map s with _ | v
    · rw [hlook] at h
      simp only [Option.isSome_none, Bool.false_or] at h
      have hs : tradingview_to_polygon s = s := by
        simp only [tradingview_to_polygon, hcme, hlook]
      rw [hs]
      exact no_colon_poly_id (stock_no_colon h)
    · have hs : tradingview_to_polygon s = v := by
        simp only [tradingview_to_polygon, hcme, hlook]
      rw [hs]
      obtain ⟨p, hp, h1, h2⟩ := lookupMap_eq_some hlook
      have hall := symbol_map_roundtrip
      rw [List.all_eq_true] at hall
      have hpr := hall p hp
      rw [beq_iff_eq] at hpr
      rw [h2, hpr]
      exact h1.symm
  · obtain ⟨hseq, hklen, hu, hm, hd, hl⟩ := cmeMatchTV_eq_some hcme
    simp only [supportedSymbol, hcme] at h
    simp only [yearOk, Bool.or_eq_true, Bool.and_eq_true, beq_iff_eq,
      decide_eq_true_eq] at h
    have hfwd : tradingview_to_polygon s = 'I' :: ':' :: (root ++ m :: ds.drop 2) := by
      simp only [tradingview_to_polygon, hcme, hl]
    have hd2 : (ds.drop 2).all Char.isDigit = true := by
      have hx := hd
      rw [← List.take_append_drop 2 ds] at hx
      rw [List.all_append, Bool.and_eq_true] at hx
      exact hx.2
    have hd2len : (ds.drop 2).length = 2 := by
      rw [List.length_drop, hl]
    have hbuild := cmeMatchPoly_build hklen hu hm hd2 hd2len
    rw [hfwd]
    simp only [polygon_to_tradingview, hbuild]
    rcases h with ⟨htake, hle⟩ | ⟨htake, hge⟩
    · rw [if_pos hle]
      have hds : ds = '2' :: '0' :: ds.drop 2 := by
        conv_lhs => rw [← List.take_append_drop 2 ds]
        rw [htake]
        rfl
      rw [← hds]
      exact hseq.symm
    · rw [if_neg (by omega)]
      have hds : ds = '1' :: '9' :: ds.drop 2 := by
        conv_lhs => rw [← List.take_append_drop 2 ds]
        rw [htake]
        rfl
      rw [← hds]
      exact hseq.symm

/-- C6 witness: the round-trip theorem applied to the CME contract code
`MNQU2025`. -/
theorem C6_roundtrip_supported_witness :
    supportedSymbol ("MNQU2025".toList) = true ∧
    polygon_to_tradingview (tradingview_to_polygon ("MNQU2025".toList)) =
      "MNQU2025".toList :=
  ⟨by decide, C6_roundtrip_supported _ (by decide)⟩

/-- C7 counterexample: an unexpected (non-array) authentication response
leaves the feed disconnected but does NOT schedule a reconnect — only the
exception branch of `connect` invokes `_handle_reconnect`. -/
theorem C7_counterexample :
    (connect { is_connected := true, reconnect_attempts := 3, max_reconnect_attempts := 10 }
        AuthResponse.jsonOther).1.is_connected = false ∧
    (connect { is_connected := true, reconnect_attempts := 3, max_reconnect_attempts := 10 }
        AuthResponse.jsonOther).2 = false := by
  decide

/-- C7 (amended): every handshake failure clears `is_connected`, but a
reconnect is scheduled only for the exception path (connection error);
the auth-failure and unexpected-shape paths return without invoking
`_handle_reconnect`. -/
theorem C7_handshake_failure (st : MonitorState) (msgs : List AuthMsg)
    (hfail : authSuccess msgs = false) :
    ((connect st AuthResponse.exn).1.is_connected = false ∧
      (connect st AuthResponse.exn).2 = true) ∧
    ((connect st (AuthResponse.jsonList msgs)).1.is_connected = false ∧
      (connect st (AuthResponse.jsonList msgs)).2 = false) ∧
    ((connect st AuthResponse.jsonOther).1.is_connected = false ∧
      (connect st AuthResponse.jsonOther).2 = false) := by
  refine ⟨⟨rfl, rfl⟩, ?_, rfl, rfl⟩
  simp [connect, hfail]

/-- C7 witness: the theorem applied to a concrete state and a concrete
auth-failed response array. -/
theorem C7_handshake_failure_witness :
    authSuccess [{ ev := "status", status := "auth_failed" }] = false ∧
    ((connect { is_connected := false, reconnect_attempts := 0, max_reconnect_attempts := 10 }
        (AuthResponse.jsonList [{ ev := "status", status := "auth_failed" }])).1.is_connected
      = false) :=
  ⟨by decide,
    (C7_handshake_failure
      { is_connected := false, reconnect_attempts := 0, max_reconnect_attempts := 10 }
      [{ ev := "status", status := "auth_failed" }] (by decide)).2.1.1⟩

/-- C8 (confirmed): across two consecutive scheduled reconnect attempts the
backoff delays are non-decreasing and never exceed the 60 second ceiling,
and once `reconnect_attempts` has reached `max_reconnect_attempts` (10 in
the source) `_handle_reconnect` returns without scheduling anything. -/
theorem C8_backoff_monotone_capped (st st1 st2 : MonitorState) (w1 w2 : Nat)
    (h1 : handle_reconnect st = (st1, some w1))
    (h2 : handle_reconnect st1 = (st2, some w2)) :
    w1 ≤ w2 ∧ w1 ≤ 60 ∧ w2 ≤ 60 ∧
    ∀ s : MonitorState, s.max_reconnect_attempts ≤ s.reconnect_attempts →
      handle_reconnect s = (s, none) := by
  unfold handle_reconnect at h1 h2
  by_cases ha : st.max_reconnect_attempts ≤ st.reconnect_attempts
  · rw [if_pos ha] at h1
    exact absurd (congrArg (fun x => x.2) h1) (by simp)
  · rw [if_neg ha, Prod.mk.injEq, Option.some_inj] at h1
    obtain ⟨hst1, hw1⟩ := h1
    subst hst1
    by_cases hb : st.max_reconnect_attempts ≤ st.reconnect_attempts + 1
    · rw [if_pos hb] at h2
      exact absurd (congrArg (fun x => x.2) h2) (by simp)
    · rw [if_neg hb, Prod.mk.injEq, Option.some_inj] at h2
      obtain ⟨hst2, hw2⟩ := h2
      subst hw1
      subst hw2
      refine ⟨?_, min_le_right _ _, min_le_right _ _, ?_⟩
      · exact min_le_min (Nat.pow_le_pow_right (by norm_num) (by dsimp only; omega)) le_rfl
      · intro s hs
        unfold handle_reconnect
        rw [if_pos hs]

/-- C8 witness: starting from a fresh monitor the first two scheduled
delays are 2 s and 4 s, and a monitor at the attempt cap schedules
nothing. -/
theorem C8_backoff_monotone_capped_witness :
    (2 ≤ 4 ∧ 2 ≤ 60 ∧ 4 ≤ 60) ∧
    handle_reconnect
        { is_connected := false, reconnect_attempts := 10, max_reconnect_attempts := 10 } =
      ({ is_connected := false, reconnect_attempts := 10, max_reconnect_attempts := 10 }, none) :=
  have h := C8_backoff_monotone_capped
    { is_connected := false, reconnect_attempts := 0, max_reconnect_attempts := 10 }
    { is_connected := false, reconnect_attempts := 1, max_reconnect_attempts := 10 }
    { is_connected := false, reconnect_attempts := 2, max_reconnect_attempts := 10 }
    2 4 (by decide) (by decide)
  ⟨⟨h.1, h.2.1, h.2.2.1⟩, h.2.2.2 _ (by decide)⟩

/-- C9 (confirmed): a successful `save_position` leaves the ticker in
`monitored_symbols` and a successful `delete_position` leaves it absent;
the registration is part of the same (synchronous) call, so store and feed
membership agree after every successful store operation. -/
theorem C9_store_feed_membership (st : SystemState) (ticker : String)
    (rec : PositionRecord) :
    ticker ∈ (save_position st ticker rec true).monitored ∧
    ticker ∉ (delete_position st ticker true).monitored := by
  constructor
  · show ticker ∈ addSym st.monitored ticker
    unfold addSym
    split_ifs with h
    · exact h
    · exact List.mem_cons_self _ _
  · show ticker ∉ removeSym st.monitored ticker
    unfold removeSym
    intro hmem
    rw [List.mem_filter] at hmem
    simp at hmem

/-- C10 (confirmed): `calculate_auto_trail` returns `None` for every store
state, ticker and price, so the `if trail_result:` branch of
`_process_message` never fires and no `auto_trail_update` broadcast is ever
sent; all dispatching is a side effect inside the call. -/
theorem C10_returns_none :
    (∀ (st : SystemState) (ticker : String) (price : ℚ),
      (calculate_auto_trail st ticker price).2.2 = none) ∧
    (∀ (st : SystemState) (sym : List Char) (price : ℚ),
      (processTradeMessage st sym price).2 = []) := by
  have hret : ∀ (st : SystemState) (ticker : String) (price : ℚ),
      (calculate_auto_trail st ticker price).2.2 = none := by
    intro st ticker price
    unfold calculate_auto_trail
    cases lookupRec st.store ticker <;> rfl
  refine ⟨hret, ?_⟩
  intro st sym price
  unfold processTradeMessage
  split_ifs
  · rcases hcall : calculate_auto_trail st (String.mk (polygon_to_tradingview sym)) price
      with ⟨st', ds, r⟩
    have := hret st (String.mk (polygon_to_tradingview sym)) price
    rw [hcall] at this
    cases r
    · rfl
    · exact absurd this (by simp)
  · rfl

end TigerAlt
